import Mathlib

set_option autoImplicit false

/-!
Shallow embedding of the cubejs-client-svelte reactive binding layer.

The embedded modules:
* `src/lib/utils/isQueryPresent.ts` — the query presence predicate;
* `src/lib/query/createCubeQuery.svelte.ts` — both revisions of the query
  binding (plain and SSR-aware), with their version-counter protocol;
* `src/lib/query/createCubeMeta.svelte.ts` — the SSR-aware metadata binding;
* the SQL binding (`createCubeSql`), the eager and lazy dry-run bindings
  (`createDryRun` / `createLazyDryRun`), and the query-builder-owned metadata
  cell (`createQueryBuilder`), which instantiate the same protocol;
* the query builder draft state and its mutation operations
  (`createQueryBuilder`), including the derived minimal query object.

JavaScript is single threaded: an async function runs synchronously up to its
first `await` and its continuation after the `await` runs synchronously as
well.  Each binding is therefore modelled as a state machine whose atomic
steps are (a) the synchronous part of an effect trigger / refetch / run call,
up to and including issuing the remote call, and (b) the synchronous
continuation applied when a remote call settles.  Remote calls that have been
issued are recorded in a `pending` list (issue order), each carrying the
version captured at issue time.
-/

namespace CubeSvelte

/-- A JavaScript value sitting in a query field that the code probes with
`Array.isArray(x) && x.length > 0`: the field can be absent/undefined,
present but not an array, or an array of elements. -/
inductive JsField (β : Type) where
  | absent
  | nonArray
  | arr (xs : List β)
deriving DecidableEq, Repr

/-- A time dimension entry; the builder keys these by their `dimension`. -/
structure TimeDim where
  dimension : String
  granularity : Option String
deriving DecidableEq, Repr

/-- The slice of a CubeJS `Query` object read by `isQueryPresent`:
`measures`, `dimensions` and `timeDimensions`. -/
structure JsQuery where
  measures : JsField String
  dimensions : JsField String
  timeDimensions : JsField TimeDim
deriving DecidableEq, Repr

/-- The query object with all three fields absent: the literal `{}`. -/
def emptyJsQuery : JsQuery :=
  { measures := .absent, dimensions := .absent, timeDimensions := .absent }

/-- `Array.isArray(x) && x.length > 0` on a query field. -/
def hasItems {β : Type} : JsField β → Bool
  | .arr xs => decide (xs.length > 0)
  | _ => false

/-- Embedding of `isQueryPresent` (src/lib/utils/isQueryPresent.ts):
`null`/`undefined` map to `none`; otherwise the query is present iff one of
`measures`, `dimensions`, `timeDimensions` is a nonempty array. -/
def isQueryPresent : Option JsQuery → Bool
  | none => false
  | some q => hasItems q.measures || hasItems q.dimensions || hasItems q.timeDimensions

/-- The presence predicate as worded by the spec (refinement reference
only): true iff the input is an object and at least one of the three fields
is an array with length > 0. -/
def isQueryPresentSpec : Option JsQuery → Prop
  | none => False
  | some q =>
      (∃ xs, q.measures = JsField.arr xs ∧ xs.length > 0) ∨
      (∃ xs, q.dimensions = JsField.arr xs ∧ xs.length > 0) ∨
      (∃ xs, q.timeDimensions = JsField.arr xs ∧ xs.length > 0)

/-- A JavaScript throwable: either an `Error` instance carrying a message, or
any other value, carried by its `String(e)` representation. -/
inductive JsThrown where
  | errorObj (message : String)
  | nonError (stringRep : String)
deriving DecidableEq, Repr

/-- The normalization `e instanceof Error ? e : new Error(String(e))`
performed in every catch block of the bindings. -/
def normalizeError : JsThrown → JsThrown
  | .errorObj m => .errorObj m
  | .nonError s => .errorObj s

/-- Whether a throwable is an `Error` instance. -/
def JsThrown.isErrorInstance : JsThrown → Bool
  | .errorObj _ => true
  | .nonError _ => false

/-- The observable state triple of a binding plus its private version
counter (`requestVersion` in every binding). -/
structure CellState (α : Type) where
  value : Option α
  loading : Bool
  error : Option JsThrown
  requestVersion : Nat
deriving DecidableEq, Repr

/-- The `data = null; loading = false; error = null` assignment block used by
the skip paths (value reset; `requestVersion` untouched). -/
def idleReset {α : Type} (c : CellState α) : CellState α :=
  { c with value := none, loading := false, error := none }

/-- Settlement outcome of a remote call: the promise resolved with a result
or rejected with a throwable. -/
inductive Outcome (α : Type) where
  | ok (result : α)
  | err (e : JsThrown)
deriving DecidableEq, Repr

/-- Which remote client operation a binding invoked, and with which query. -/
inductive RemoteCall where
  | load (q : Option JsQuery)
  | meta
  | sql (q : Option JsQuery)
  | dryRun (q : Option JsQuery)
deriving DecidableEq, Repr

/-- A remote call that has been issued: the version captured when it was
issued, the operation, and whether its promise has already settled. -/
structure PendingCall where
  version : Nat
  call : RemoteCall
  settled : Bool
deriving DecidableEq, Repr

/-- The synchronous continuation run when an issued call settles, i.e. the
`try`/`catch`/`finally` tail of `executeQuery`/`fetchMeta`/`fetchSql`/
`executeDryRun`/`run`: each mutation is guarded by
`version === requestVersion`. -/
def applySettle {α : Type} (o : Outcome α) (captured : Nat) (c : CellState α) : CellState α :=
  match o with
  | .ok r =>
      let c1 := if captured = c.requestVersion then { c with value := some r } else c
      if captured = c1.requestVersion then { c1 with loading := false } else c1
  | .err e =>
      let c1 :=
        if captured = c.requestVersion then
          { c with error := some (normalizeError e), value := none }
        else c
      if captured = c1.requestVersion then { c1 with loading := false } else c1

/-- Which binding a machine instantiates, with the construction-time options
relevant to its trigger gating.  `queryPlain` is the non-SSR revision of
`createCubeQuery`; `querySsr` the SSR-aware revision; `metaSsr` is
`createCubeMeta` (SSR-aware revision); `builderMeta` is the metadata cell
owned by `createQueryBuilder`; `sqlBinding` is `createCubeSql`;
`dryRunEager` is `createDryRun`; `lazyDryRun` is `createLazyDryRun`.
The `hasInitial` flags record the truthiness of `initialData`/`initialMeta`. -/
inductive Binding where
  | queryPlain (skip : Bool)
  | querySsr (skip : Bool) (ssr : Bool) (hasInitial : Bool)
  | metaSsr (ssr : Bool) (hasInitial : Bool)
  | builderMeta (ssr : Bool) (hasInitial : Bool)
  | sqlBinding (ssr : Bool)
  | dryRunEager (ssr : Bool)
  | lazyDryRun
deriving DecidableEq, Repr

/-- Full machine state of one binding instance: the cell, the
`hasRefetched` flag of the SSR-aware variants, the `lastQuery` memory of the
lazy dry-run, and the list of issued remote calls in issue order. -/
structure Machine (α : Type) where
  cell : CellState α
  hasRefetched : Bool
  lastQuery : Option JsQuery
  pending : List PendingCall
deriving DecidableEq, Repr

/-- Construction-time state: `value` starts at the supplied seed
(`initialData ?? null` / `initialMeta ?? null`), `loading = false`,
`error = null`, `requestVersion = 0`, no refetch yet, no remembered query,
no issued call. -/
def initMachine {α : Type} (seed : Option α) : Machine α :=
  { cell := { value := seed, loading := false, error := none, requestVersion := 0 },
    hasRefetched := false, lastQuery := none, pending := [] }

/-- `requestVersion++` done immediately before capturing a version. -/
def bump {α : Type} (m : Machine α) : Machine α :=
  { m with cell := { m.cell with requestVersion := m.cell.requestVersion + 1 } }

/-- The body shared verbatim by `executeQuery` (both query revisions),
`fetchSql` and `executeDryRun`, after the caller captured `version`: if the
query is not present, reset to the idle triple when still latest and issue
nothing; otherwise set `loading = true`, `error = null` and issue the remote
call, recording the captured version. -/
def executeStart {α : Type} (call : Option JsQuery → RemoteCall) (q : Option JsQuery)
    (version : Nat) (m : Machine α) : Machine α :=
  if isQueryPresent q = false then
    if version = m.cell.requestVersion then { m with cell := idleReset m.cell } else m
  else
    { m with cell := { m.cell with loading := true, error := none },
             pending := m.pending ++ [⟨version, call q, false⟩] }

/-- The body of `fetchMeta` (metadata bindings) after `version` was
captured: no presence gate; set `loading = true`, `error = null` and issue
`client.meta()`. -/
def metaStart {α : Type} (version : Nat) (m : Machine α) : Machine α :=
  { m with cell := { m.cell with loading := true, error := none },
           pending := m.pending ++ [⟨version, RemoteCall.meta, false⟩] }

/-- The lazy dry-run's `run(query)`: remember the query, bump the version,
then proceed exactly like `executeDryRun` with the bumped version. -/
def lazyRun {α : Type} (q : JsQuery) (m : Machine α) : Machine α :=
  let m1 := bump { m with lastQuery := some q }
  executeStart RemoteCall.dryRun (some q) m1.cell.requestVersion m1

/-- An externally observable step of a binding instance:
a run of the auto-trigger `$effect` (with the current result `q` of the
query-producing function — ignored by the metadata bindings), a call to
`refetch()` (again with the current query for the bindings that re-read it),
a call to the lazy dry-run's `run(q)`, or the settlement of the `i`-th
issued remote call with outcome `o`. -/
inductive Event (α : Type) where
  | trigger (q : Option JsQuery)
  | refetchEv (q : Option JsQuery)
  | runEv (q : JsQuery)
  | settleEv (i : Nat) (o : Outcome α)
deriving DecidableEq, Repr

/-- One atomic step of binding `b` in environment `browser`
(the value of `isBrowser()`), translated case by case from the sources. -/
def step {α : Type} (b : Binding) (browser : Bool) (m : Machine α) : Event α → Machine α
  | .trigger q =>
      match b with
      | .queryPlain skip =>
          if skip then { m with cell := idleReset m.cell }
          else if isQueryPresent q then
            let m1 := bump m
            executeStart RemoteCall.load q m1.cell.requestVersion m1
          else m
      | .querySsr skip ssr hasInitial =>
          if skip then { m with cell := idleReset m.cell }
          else if !browser && !ssr then m
          else if hasInitial && !m.hasRefetched then m
          else if isQueryPresent q then
            let m1 := bump m
            executeStart RemoteCall.load q m1.cell.requestVersion m1
          else m
      | .metaSsr ssr hasInitial =>
          if !browser && !ssr then m
          else if hasInitial && !m.hasRefetched then m
          else
            let m1 := bump m
            metaStart m1.cell.requestVersion m1
      | .builderMeta ssr hasInitial =>
          if !browser && !ssr then m
          else if hasInitial && !m.hasRefetched then m
          else
            let m1 := bump m
            metaStart m1.cell.requestVersion m1
      | .sqlBinding ssr =>
          if !browser && !ssr then m
          else if isQueryPresent q then
            let m1 := bump m
            executeStart RemoteCall.sql q m1.cell.requestVersion m1
          else m
      | .dryRunEager ssr =>
          if !browser && !ssr then m
          else if isQueryPresent q then
            let m1 := bump m
            executeStart RemoteCall.dryRun q m1.cell.requestVersion m1
          else m
      | .lazyDryRun => m
  | .refetchEv q =>
      match b with
      | .queryPlain _ =>
          let m1 := bump m
          executeStart RemoteCall.load q m1.cell.requestVersion m1
      | .querySsr _ _ _ =>
          let m1 := bump { m with hasRefetched := true }
          executeStart RemoteCall.load q m1.cell.requestVersion m1
      | .metaSsr _ _ =>
          let m1 := bump { m with hasRefetched := true }
          metaStart m1.cell.requestVersion m1
      | .builderMeta _ _ =>
          let m1 := bump { m with hasRefetched := true }
          metaStart m1.cell.requestVersion m1
      | .sqlBinding _ =>
          let m1 := bump m
          executeStart RemoteCall.sql q m1.cell.requestVersion m1
      | .dryRunEager _ =>
          let m1 := bump m
          executeStart RemoteCall.dryRun q m1.cell.requestVersion m1
      | .lazyDryRun =>
          match m.lastQuery with
          | some q' => lazyRun q' m
          | none => m
  | .runEv q =>
      match b with
      | .lazyDryRun => lazyRun q m
      | _ => m
  | .settleEv i o =>
      match m.pending.get? i with
      | some p =>
          if p.settled then m
          else
            { m with cell := applySettle o p.version m.cell,
                     pending := m.pending.set i { p with settled := true } }
      | none => m

/-- Run a binding instance from construction through a list of events. -/
def runTrace {α : Type} (b : Binding) (browser : Bool) (seed : Option α)
    (events : List (Event α)) : Machine α :=
  events.foldl (step b browser) (initMachine seed)

/-- A filter object; `addFilter` never inspects it, so the exact fields only
matter for equality. -/
structure JsFilter where
  member : String
  op : String
  values : List String
deriving DecidableEq, Repr

/-- An `OrderItem` is the tuple `[string, 'asc' | 'desc']`; the direction is
kept as its string just as in the source. -/
abbrev OrderItem := String × String

/-- An entry of an array-form `order` field as received from a caller:
either a two-element array of a key and a direction string, or anything
else (wrong shape), which `isOrderItem` rejects. -/
inductive RawOrderEntry where
  | pair (key : String) (dir : String)
  | malformed
deriving DecidableEq, Repr

/-- Embedding of the `isOrderItem` type guard: a two-element array whose
first element is a string and whose second is `'asc'` or `'desc'`. -/
def isOrderItem : RawOrderEntry → Bool
  | .pair _ d => d == "asc" || d == "desc"
  | .malformed => false

/-- A `Query['order']` value: array form or object form. -/
inductive OrderInput where
  | arrForm (entries : List RawOrderEntry)
  | objForm (entries : List (String × String))
deriving DecidableEq, Repr

/-- Embedding of `normalizeOrder`: `[]` for a missing field, the valid
entries of an array-form value, and the entries with an `'asc'`/`'desc'`
direction of an object-form value. -/
def normalizeOrder : Option OrderInput → List OrderItem
  | none => []
  | some (.arrForm es) =>
      es.filterMap fun e =>
        match e with
        | .pair k d => if d == "asc" || d == "desc" then some (k, d) else none
        | .malformed => none
  | some (.objForm es) =>
      es.filter fun kd => kd.2 == "asc" || kd.2 == "desc"

/-- The full `Query` object handed to `createQueryBuilder` as `initialQuery`;
every field optional (`none` = absent/undefined). -/
structure SeedQuery where
  measures : Option (List String)
  dimensions : Option (List String)
  segments : Option (List String)
  timeDimensions : Option (List TimeDim)
  filters : Option (List JsFilter)
  order : Option OrderInput
  limit : Option Int
  offset : Option Int
  timezone : Option String
  renewQuery : Option Bool
deriving DecidableEq, Repr

/-- The seed query `{measures: ["Orders.count"]}` used by the spec's builder
reset example. -/
def seedMeasuresOnly : SeedQuery :=
  { measures := some ["Orders.count"], dimensions := none, segments := none,
    timeDimensions := none, filters := none, order := none, limit := none,
    offset := none, timezone := none, renewQuery := none }

/-- The builder's mutable draft: one field per `$state` of
`createQueryBuilder`. -/
structure Draft where
  measures : List String
  dimensions : List String
  segments : List String
  timeDimensions : List TimeDim
  filters : List JsFilter
  order : List OrderItem
  chartType : String
  limit : Option Int
  offset : Option Int
  timezone : Option String
  renewQuery : Bool
deriving DecidableEq, Repr

/-- The constructor-time extraction block of `createQueryBuilder`
(`initialMeasures = initialQuery?.measures ?? []` and friends), assembled
into a draft. -/
def initialDraft (initialQuery : Option SeedQuery) (initialChartType : String) : Draft :=
  { measures := (initialQuery.bind SeedQuery.measures).getD [],
    dimensions := (initialQuery.bind SeedQuery.dimensions).getD [],
    segments := (initialQuery.bind SeedQuery.segments).getD [],
    timeDimensions := (initialQuery.bind SeedQuery.timeDimensions).getD [],
    filters := (initialQuery.bind SeedQuery.filters).getD [],
    order := normalizeOrder (initialQuery.bind SeedQuery.order),
    chartType := initialChartType,
    limit := initialQuery.bind SeedQuery.limit,
    offset := initialQuery.bind SeedQuery.offset,
    timezone := initialQuery.bind SeedQuery.timezone,
    renewQuery := (initialQuery.bind SeedQuery.renewQuery).getD false }

/-- A builder instance: the constructor-time snapshot (the captured
`initial*` constants) and the current draft state. -/
structure Builder where
  init : Draft
  draft : Draft
deriving DecidableEq, Repr

/-- `createQueryBuilder`: extract the initial constants and seed every
`$state` field with a copy of them. -/
def createQueryBuilder (initialQuery : Option SeedQuery) (initialChartType : String) : Builder :=
  let d := initialDraft initialQuery initialChartType
  { init := d, draft := d }

namespace Builder

/-- `addMeasure`: append unless already included. -/
def addMeasure (b : Builder) (measure : String) : Builder :=
  if b.draft.measures.contains measure then b
  else { b with draft := { b.draft with measures := b.draft.measures ++ [measure] } }

/-- `removeMeasure`: remove by value. -/
def removeMeasure (b : Builder) (measure : String) : Builder :=
  { b with draft := { b.draft with measures := b.draft.measures.filter (· != measure) } }

/-- `updateMeasure`: replace in place by value match. -/
def updateMeasure (b : Builder) (oldMeasure newMeasure : String) : Builder :=
  { b with draft := { b.draft with
      measures := b.draft.measures.map fun m => if m == oldMeasure then newMeasure else m } }

/-- `setMeasures`: wholesale replace. -/
def setMeasures (b : Builder) (newMeasures : List String) : Builder :=
  { b with draft := { b.draft with measures := newMeasures } }

/-- `addDimension`: append unless already included. -/
def addDimension (b : Builder) (dimension : String) : Builder :=
  if b.draft.dimensions.contains dimension then b
  else { b with draft := { b.draft with dimensions := b.draft.dimensions ++ [dimension] } }

/-- `removeDimension`: remove by value. -/
def removeDimension (b : Builder) (dimension : String) : Builder :=
  { b with draft := { b.draft with dimensions := b.draft.dimensions.filter (· != dimension) } }

/-- `updateDimension`: replace in place by value match. -/
def updateDimension (b : Builder) (oldDimension newDimension : String) : Builder :=
  { b with draft := { b.draft with
      dimensions := b.draft.dimensions.map fun d => if d == oldDimension then newDimension else d } }

/-- `setDimensions`: wholesale replace. -/
def setDimensions (b : Builder) (newDimensions : List String) : Builder :=
  { b with draft := { b.draft with dimensions := newDimensions } }

/-- `addSegment`: append unless already included. -/
def addSegment (b : Builder) (segment : String) : Builder :=
  if b.draft.segments.contains segment then b
  else { b with draft := { b.draft with segments := b.draft.segments ++ [segment] } }

/-- `removeSegment`: remove by value. -/
def removeSegment (b : Builder) (segment : String) : Builder :=
  { b with draft := { b.draft with segments := b.draft.segments.filter (· != segment) } }

/-- `setSegments`: wholesale replace. -/
def setSegments (b : Builder) (newSegments : List String) : Builder :=
  { b with draft := { b.draft with segments := newSegments } }

/-- A `Partial<TimeDimension>` patch for `updateTimeDimension`. -/
structure TimeDimUpdate where
  dimension : Option String
  granularity : Option (Option String)
deriving DecidableEq, Repr

/-- `{ ...td, ...updates }`. -/
def mergeTimeDim (td : TimeDim) (u : TimeDimUpdate) : TimeDim :=
  { dimension := u.dimension.getD td.dimension,
    granularity := u.granularity.getD td.granularity }

/-- `addTimeDimension`: append unless one with the same `dimension` exists. -/
def addTimeDimension (b : Builder) (timeDimension : TimeDim) : Builder :=
  if b.draft.timeDimensions.any (fun td => td.dimension == timeDimension.dimension) then b
  else { b with draft := { b.draft with
      timeDimensions := b.draft.timeDimensions ++ [timeDimension] } }

/-- `removeTimeDimension`: remove by `dimension` key. -/
def removeTimeDimension (b : Builder) (dimension : String) : Builder :=
  { b with draft := { b.draft with
      timeDimensions := b.draft.timeDimensions.filter fun td => td.dimension != dimension } }

/-- `updateTimeDimension`: merge the patch into the entry with the matching
`dimension` key. -/
def updateTimeDimension (b : Builder) (dimension : String) (updates : TimeDimUpdate) : Builder :=
  { b with draft := { b.draft with
      timeDimensions := b.draft.timeDimensions.map fun td =>
        if td.dimension == dimension then mergeTimeDim td updates else td } }

/-- `setTimeDimensions`: wholesale replace. -/
def setTimeDimensions (b : Builder) (newTimeDimensions : List TimeDim) : Builder :=
  { b with draft := { b.draft with timeDimensions := newTimeDimensions } }

/-- `addFilter`: unconditional append. -/
def addFilter (b : Builder) (filter : JsFilter) : Builder :=
  { b with draft := { b.draft with filters := b.draft.filters ++ [filter] } }

/-- `removeFilter`: remove by index. -/
def removeFilter (b : Builder) (index : Nat) : Builder :=
  { b with draft := { b.draft with
      filters := (b.draft.filters.enum.filter fun p => p.1 != index).map Prod.snd } }

/-- `updateFilter`: replace by index. -/
def updateFilter (b : Builder) (index : Nat) (filter : JsFilter) : Builder :=
  { b with draft := { b.draft with
      filters := b.draft.filters.enum.map fun p => if p.1 == index then filter else p.2 } }

/-- `setFilters`: wholesale replace. -/
def setFilters (b : Builder) (newFilters : List JsFilter) : Builder :=
  { b with draft := { b.draft with filters := newFilters } }

/-- `setOrder`: wholesale replace. -/
def setOrder (b : Builder) (newOrder : List OrderItem) : Builder :=
  { b with draft := { b.draft with order := newOrder } }

/-- `setChartType`: unconditional replace. -/
def setChartType (b : Builder) (newChartType : String) : Builder :=
  { b with draft := { b.draft with chartType := newChartType } }

/-- `setLimit`: unconditional replace. -/
def setLimit (b : Builder) (newLimit : Option Int) : Builder :=
  { b with draft := { b.draft with limit := newLimit } }

/-- `setOffset`: unconditional replace. -/
def setOffset (b : Builder) (newOffset : Option Int) : Builder :=
  { b with draft := { b.draft with offset := newOffset } }

/-- `setTimezone`: unconditional replace. -/
def setTimezone (b : Builder) (newTimezone : Option String) : Builder :=
  { b with draft := { b.draft with timezone := newTimezone } }

/-- `setRenewQuery`: unconditional replace. -/
def setRenewQuery (b : Builder) (newRenewQuery : Bool) : Builder :=
  { b with draft := { b.draft with renewQuery := newRenewQuery } }

/-- `reset`: assign every draft field from the captured `initial*`
constants, i.e. restore the constructor-time snapshot. -/
def reset (b : Builder) : Builder :=
  { b with draft := b.init }

end Builder

/-- The derived query object; `none` means the key is genuinely absent. -/
structure DerivedQuery where
  measures : Option (List String)
  dimensions : Option (List String)
  segments : Option (List String)
  timeDimensions : Option (List TimeDim)
  filters : Option (List JsFilter)
  order : Option (List OrderItem)
  limit : Option Int
  offset : Option Int
  timezone : Option String
  renewQuery : Option Bool
deriving DecidableEq, Repr

/-- The `$derived` query object of `createQueryBuilder`: each collection is
spread in only when nonempty, each scalar only when not undefined, the renew
flag only when true. -/
def deriveQuery (d : Draft) : DerivedQuery :=
  { measures := if d.measures.length > 0 then some d.measures else none,
    dimensions := if d.dimensions.length > 0 then some d.dimensions else none,
    segments := if d.segments.length > 0 then some d.segments else none,
    timeDimensions := if d.timeDimensions.length > 0 then some d.timeDimensions else none,
    filters := if d.filters.length > 0 then some d.filters else none,
    order := if d.order.length > 0 then some d.order else none,
    limit := d.limit,
    offset := d.offset,
    timezone := d.timezone,
    renewQuery := if d.renewQuery then some true else none }

/-- One call to a builder mutation entry point, for quantifying over
arbitrary interaction sequences. -/
inductive BuilderOp where
  | addMeasure (m : String)
  | removeMeasure (m : String)
  | updateMeasure (o n : String)
  | setMeasures (ms : List String)
  | addDimension (d : String)
  | removeDimension (d : String)
  | updateDimension (o n : String)
  | setDimensions (ds : List String)
  | addSegment (s : String)
  | removeSegment (s : String)
  | setSegments (ss : List String)
  | addTimeDimension (t : TimeDim)
  | removeTimeDimension (d : String)
  | updateTimeDimension (d : String) (u : Builder.TimeDimUpdate)
  | setTimeDimensions (ts : List TimeDim)
  | addFilter (f : JsFilter)
  | removeFilter (i : Nat)
  | updateFilter (i : Nat) (f : JsFilter)
  | setFilters (fs : List JsFilter)
  | setOrder (os : List OrderItem)
  | setChartType (c : String)
  | setLimit (l : Option Int)
  | setOffset (l : Option Int)
  | setTimezone (t : Option String)
  | setRenewQuery (r : Bool)
deriving DecidableEq, Repr

/-- Dispatch a `BuilderOp` to the corresponding builder operation. -/
def applyOp (b : Builder) : BuilderOp → Builder
  | .addMeasure m => b.addMeasure m
  | .removeMeasure m => b.removeMeasure m
  | .updateMeasure o n => b.updateMeasure o n
  | .setMeasures ms => b.setMeasures ms
  | .addDimension d => b.addDimension d
  | .removeDimension d => b.removeDimension d
  | .updateDimension o n => b.updateDimension o n
  | .setDimensions ds => b.setDimensions ds
  | .addSegment s => b.addSegment s
  | .removeSegment s => b.removeSegment s
  | .setSegments ss => b.setSegments ss
  | .addTimeDimension t => b.addTimeDimension t
  | .removeTimeDimension d => b.removeTimeDimension d
  | .updateTimeDimension d u => b.updateTimeDimension d u
  | .setTimeDimensions ts => b.setTimeDimensions ts
  | .addFilter f => b.addFilter f
  | .removeFilter i => b.removeFilter i
  | .updateFilter i f => b.updateFilter i f
  | .setFilters fs => b.setFilters fs
  | .setOrder os => b.setOrder os
  | .setChartType c => b.setChartType c
  | .setLimit l => b.setLimit l
  | .setOffset l => b.setOffset l
  | .setTimezone t => b.setTimezone t
  | .setRenewQuery r => b.setRenewQuery r

/-- Apply a sequence of builder operations in order. -/
def applyOps (b : Builder) (ops : List BuilderOp) : Builder :=
  ops.foldl applyOp b

/-! ## Helper lemmas -/

/-- `hasItems` holds exactly on nonempty arrays. -/
theorem hasItems_iff {β : Type} (f : JsField β) :
    hasItems f = true ↔ ∃ xs, f = JsField.arr xs ∧ xs.length > 0 := by
  cases f <;> simp [hasItems]

/-! ## Claim theorems -/

/-- Claim C2: `isQueryPresent` returns false for `null`/`undefined` and
returns true iff one of `measures`, `dimensions`, `timeDimensions` is an
array with length > 0 (a non-array value counts as absent); in particular
`isQueryPresent {}`, `isQueryPresent {measures: []}`, `isQueryPresent null`
are false and `isQueryPresent {measures: ["Orders.count"]}` is true. -/
theorem isQueryPresent_characterization :
    (∀ q : Option JsQuery, isQueryPresent q = true ↔ isQueryPresentSpec q) ∧
    isQueryPresent none = false ∧
    isQueryPresent (some emptyJsQuery) = false ∧
    isQueryPresent (some { emptyJsQuery with measures := JsField.arr [] }) = false ∧
    isQueryPresent (some { emptyJsQuery with measures := JsField.nonArray }) = false ∧
    isQueryPresent (some { emptyJsQuery with measures := JsField.arr ["Orders.count"] }) = true := by
  refine ⟨?_, by decide, by decide, by decide, by decide, by decide⟩
  intro q
  cases q with
  | none => simp [isQueryPresent, isQueryPresentSpec]
  | some qs =>
      simp only [isQueryPresent, isQueryPresentSpec, Bool.or_eq_true]
      rw [hasItems_iff, hasItems_iff, hasItems_iff]
      exact or_assoc

/-- A concrete filter for the builder examples. -/
def sampleFilter : JsFilter :=
  { member := "Orders.status", op := "equals", values := ["shipped"] }

/-- Claim C7: `add` is a no-op when the value is already present for the
set-like collections (measures, dimensions, segments) — adding
"Orders.count" twice yields a one-element measures list — while `addFilter`
appends unconditionally, so adding the same filter twice yields two
entries. -/
theorem builder_add_idempotence :
    (∀ (b : Builder) (m : String), (b.addMeasure m).addMeasure m = b.addMeasure m) ∧
    (∀ (b : Builder) (d : String), (b.addDimension d).addDimension d = b.addDimension d) ∧
    (∀ (b : Builder) (s : String), (b.addSegment s).addSegment s = b.addSegment s) ∧
    (((createQueryBuilder none "line").addMeasure "Orders.count").addMeasure
        "Orders.count").draft.measures = ["Orders.count"] ∧
    (∀ (b : Builder) (f : JsFilter),
        ((b.addFilter f).addFilter f).draft.filters = b.draft.filters ++ [f, f]) ∧
    (((createQueryBuilder none "line").addFilter sampleFilter).addFilter
        sampleFilter).draft.filters.length = 2 := by
  refine ⟨?_, ?_, ?_, by decide, ?_, by decide⟩
  · intro b m
    unfold Builder.addMeasure
    by_cases h : b.draft.measures.contains m
    · rw [if_pos h, if_pos h]
    · rw [if_neg h, if_pos (by simp)]
  · intro b d
    unfold Builder.addDimension
    by_cases h : b.draft.dimensions.contains d
    · rw [if_pos h, if_pos h]
    · rw [if_neg h, if_pos (by simp)]
  · intro b s
    unfold Builder.addSegment
    by_cases h : b.draft.segments.contains s
    · rw [if_pos h, if_pos h]
    · rw [if_neg h, if_pos (by simp)]
  · intro b f
    simp [Builder.addFilter]

/-- Every builder mutation leaves the constructor-time snapshot untouched. -/
theorem applyOp_init (b : Builder) (op : BuilderOp) : (applyOp b op).init = b.init := by
  cases op <;>
    simp only [applyOp, Builder.addMeasure, Builder.removeMeasure, Builder.updateMeasure,
      Builder.setMeasures, Builder.addDimension, Builder.removeDimension,
      Builder.updateDimension, Builder.setDimensions, Builder.addSegment,
      Builder.removeSegment, Builder.setSegments, Builder.addTimeDimension,
      Builder.removeTimeDimension, Builder.updateTimeDimension, Builder.setTimeDimensions,
      Builder.addFilter, Builder.removeFilter, Builder.updateFilter, Builder.setFilters,
      Builder.setOrder, Builder.setChartType, Builder.setLimit, Builder.setOffset,
      Builder.setTimezone, Builder.setRenewQuery] <;>
    split <;> rfl

/-- Iterated mutations leave the constructor-time snapshot untouched. -/
theorem applyOps_init (b : Builder) (ops : List BuilderOp) : (applyOps b ops).init = b.init := by
  induction ops generalizing b with
  | nil => rfl
  | cons op ops ih => simpa [applyOps, List.foldl_cons, applyOp_init] using ih (applyOp b op)

/-- Claim C8: `reset()` restores every draft field to its value at
construction time (the original seed), not to the last-derived query: after
any sequence of mutations the reset draft equals the construction draft, and
in the spec's concrete scenario (seed `{measures: ["Orders.count"]}`, chart
type `"bar"`, then `addMeasure("X")`, `setChartType("pie")`, `setLimit(50)`,
`reset()`) measures are `["Orders.count"]`, chartType is `"bar"` and limit
is undefined. -/
theorem builder_reset_law :
    (∀ (initialQuery : Option SeedQuery) (initialChartType : String) (ops : List BuilderOp),
        ((applyOps (createQueryBuilder initialQuery initialChartType) ops).reset).draft
          = (createQueryBuilder initialQuery initialChartType).draft) ∧
    (((((createQueryBuilder (some seedMeasuresOnly) "bar").addMeasure "X").setChartType
          "pie").setLimit (some 50)).reset.draft.measures = ["Orders.count"] ∧
      ((((createQueryBuilder (some seedMeasuresOnly) "bar").addMeasure "X").setChartType
          "pie").setLimit (some 50)).reset.draft.chartType = "bar" ∧
      ((((createQueryBuilder (some seedMeasuresOnly) "bar").addMeasure "X").setChartType
          "pie").setLimit (some 50)).reset.draft.limit = none) := by
  refine ⟨?_, by decide, by decide, by decide⟩
  intro initialQuery initialChartType ops
  rw [Builder.reset, applyOps_init]
  rfl

/-- Claim C9: the derived query object contains each collection key iff the
collection is nonempty (and then with exactly the draft's value), each
scalar key iff the scalar is not undefined (passed through), and the
`renewQuery` key iff the flag is true; with only `addMeasure("Orders.count")`
and `addDimension("Orders.status")` applied the derived object is exactly
`{measures: ["Orders.count"], dimensions: ["Orders.status"]}`. -/
theorem derived_query_minimality :
    (∀ d : Draft,
        ((deriveQuery d).measures = none ↔ d.measures = []) ∧
        ((deriveQuery d).measures = none ∨ (deriveQuery d).measures = some d.measures) ∧
        ((deriveQuery d).dimensions = none ↔ d.dimensions = []) ∧
        ((deriveQuery d).dimensions = none ∨ (deriveQuery d).dimensions = some d.dimensions) ∧
        ((deriveQuery d).segments = none ↔ d.segments = []) ∧
        ((deriveQuery d).segments = none ∨ (deriveQuery d).segments = some d.segments) ∧
        ((deriveQuery d).timeDimensions = none ↔ d.timeDimensions = []) ∧
        ((deriveQuery d).timeDimensions = none ∨
          (deriveQuery d).timeDimensions = some d.timeDimensions) ∧
        ((deriveQuery d).filters = none ↔ d.filters = []) ∧
        ((deriveQuery d).filters = none ∨ (deriveQuery d).filters = some d.filters) ∧
        ((deriveQuery d).order = none ↔ d.order = []) ∧
        ((deriveQuery d).order = none ∨ (deriveQuery d).order = some d.order) ∧
        (deriveQuery d).limit = d.limit ∧
        (deriveQuery d).offset = d.offset ∧
        (deriveQuery d).timezone = d.timezone ∧
        ((deriveQuery d).renewQuery = none ↔ d.renewQuery = false) ∧
        ((deriveQuery d).renewQuery = none ∨ (deriveQuery d).renewQuery = some true)) ∧
    deriveQuery (((createQueryBuilder none "line").addMeasure
          "Orders.count").addDimension "Orders.status").draft
      = { measures := some ["Orders.count"], dimensions := some ["Orders.status"],
          segments := none, timeDimensions := none, filters := none, order := none,
          limit := none, offset := none, timezone := none, renewQuery := none } := by
  refine ⟨?_, by decide⟩
  intro d
  refine ⟨?_, ?_, ?_, ?_, ?_, ?_, ?_, ?_, ?_, ?_, ?_, ?_, rfl, rfl, rfl, ?_, ?_⟩ <;>
    simp [deriveQuery] <;>
    try exact em _

/-! ## Version-counter invariants of the cell protocol -/

/-- `applySettle` never changes the version counter. -/
theorem applySettle_requestVersion {α : Type} (o : Outcome α) (v : Nat) (c : CellState α) :
    (applySettle o v c).requestVersion = c.requestVersion := by
  by_cases h : v = c.requestVersion <;> cases o <;> simp [applySettle, h]

/-- A settlement whose captured version is no longer current leaves the
cell state completely unchanged. -/
theorem applySettle_stale {α : Type} (o : Outcome α) (v : Nat) (c : CellState α)
    (h : v ≠ c.requestVersion) : applySettle o v c = c := by
  cases o <;> simp [applySettle, h]

/-- A rejection settling while still the latest stores the normalized error,
clears the value and ends loading. -/
theorem applySettle_err_latest {α : Type} (e : JsThrown) (v : Nat) (c : CellState α)
    (h : v = c.requestVersion) :
    applySettle (Outcome.err e) v c
      = { c with error := some (normalizeError e), value := none, loading := false } := by
  subst h; simp [applySettle]

/-- Marking a pending call as settled does not change the version list. -/
theorem map_version_set (l : List PendingCall) (i : Nat) (p : PendingCall)
    (h : l.get? i = some p) :
    (l.set i { p with settled := true }).map PendingCall.version
      = l.map PendingCall.version := by
  induction l generalizing i with
  | nil => simp
  | cons hd tl ih =>
      cases i with
      | zero => simp_all [List.set]
      | succ n => simp_all [List.set]

/-- The protocol invariant: every issued call's captured version is at most
the current `requestVersion`, and captured versions strictly increase in
issue order. -/
def VersionInv {α : Type} (m : Machine α) : Prop :=
  (∀ p ∈ m.pending, p.version ≤ m.cell.requestVersion) ∧
  (m.pending.map PendingCall.version).Pairwise (· < ·)

/-- The invariant is insensitive to the cell's value/loading/error fields,
to `hasRefetched` and to `lastQuery`. -/
theorem versionInv_idle {α : Type} {m : Machine α} (h : VersionInv m) :
    VersionInv { m with cell := idleReset m.cell } := by
  simpa [VersionInv, idleReset] using h

/-- `hasRefetched := true` preserves the invariant. -/
theorem versionInv_hasRefetched {α : Type} {m : Machine α} (h : VersionInv m) :
    VersionInv { m with hasRefetched := true } := h

/-- `lastQuery := q` preserves the invariant. -/
theorem versionInv_lastQuery {α : Type} {m : Machine α} (q : Option JsQuery)
    (h : VersionInv m) : VersionInv { m with lastQuery := q } := h

/-- A bump-then-execute (the issuance pattern of every non-meta binding)
preserves the invariant. -/
theorem executeStart_inv {α : Type} (call : Option JsQuery → RemoteCall) (q : Option JsQuery)
    (m : Machine α) (h : VersionInv m) :
    VersionInv (executeStart call q (bump m).cell.requestVersion (bump m)) := by
  obtain ⟨hle, hpw⟩ := h
  unfold executeStart bump
  by_cases hq : isQueryPresent q = false
  · rw [if_pos hq, if_pos rfl]
    exact ⟨fun p hp => Nat.le_succ_of_le (hle p hp), hpw⟩
  · rw [if_neg hq]
    refine ⟨?_, ?_⟩
    · intro p hp
      rcases List.mem_append.mp hp with hp | hp
      · exact Nat.le_succ_of_le (hle p hp)
      · rcases List.mem_singleton.mp hp with rfl
        exact Nat.le_refl _
    · rw [List.map_append, List.pairwise_append]
      refine ⟨hpw, List.pairwise_singleton _ _, ?_⟩
      intro a ha x hx
      rcases List.mem_singleton.mp hx with rfl
      rcases List.mem_map.mp ha with ⟨p, hp, rfl⟩
      exact Nat.lt_succ_of_le (hle p hp)

/-- A bump-then-meta-fetch preserves the invariant. -/
theorem metaStart_inv {α : Type} (m : Machine α) (h : VersionInv m) :
    VersionInv (metaStart (bump m).cell.requestVersion (bump m)) := by
  obtain ⟨hle, hpw⟩ := h
  unfold metaStart bump
  refine ⟨?_, ?_⟩
  · intro p hp
    rcases List.mem_append.mp hp with hp | hp
    · exact Nat.le_succ_of_le (hle p hp)
    · rcases List.mem_singleton.mp hp with rfl
      exact Nat.le_refl _
  · rw [List.map_append, List.pairwise_append]
    refine ⟨hpw, List.pairwise_singleton _ _, ?_⟩
    intro a ha x hx
    rcases List.mem_singleton.mp hx with rfl
    rcases List.mem_map.mp ha with ⟨p, hp, rfl⟩
    exact Nat.lt_succ_of_le (hle p hp)

/-- `run(query)` on the lazy dry-run preserves the invariant. -/
theorem lazyRun_inv {α : Type} (q : JsQuery) (m : Machine α) (h : VersionInv m) :
    VersionInv (lazyRun q m) :=
  executeStart_inv RemoteCall.dryRun (some q) { m with lastQuery := some q }
    (versionInv_lastQuery (some q) h)

/-- Every step of every binding preserves the invariant. -/
theorem step_versionInv {α : Type} (b : Binding) (browser : Bool) (m : Machine α)
    (e : Event α) (h : VersionInv m) : VersionInv (step b browser m e) := by
  cases e with
  | trigger q =>
      cases b <;> dsimp only [step] <;>
        (repeat' split) <;>
        first
          | exact h
          | exact versionInv_idle h
          | exact executeStart_inv _ _ _ h
          | exact metaStart_inv _ h
  | refetchEv q =>
      cases b <;> dsimp only [step] <;>
        (repeat' split) <;>
        first
          | exact h
          | exact executeStart_inv _ _ _ h
          | exact executeStart_inv _ _ _ (versionInv_hasRefetched h)
          | exact metaStart_inv _ (versionInv_hasRefetched h)
  | runEv q =>
      cases b <;> dsimp only [step] <;>
        first
          | exact h
          | exact lazyRun_inv _ _ h
  | settleEv i o =>
      dsimp only [step]
      cases hp : m.pending.get? i with
      | none => exact h
      | some p =>
          by_cases hs : p.settled
          · simp only [hs, if_true]
            exact h
          · simp only [hs, Bool.false_eq_true, if_false]
            obtain ⟨hle, hpw⟩ := h
            refine ⟨?_, ?_⟩
            · intro p' hp'
              rw [applySettle_requestVersion]
              rcases List.mem_or_eq_of_mem_set hp' with hmem | rfl
              · exact hle p' hmem
              · exact hle p (List.get?_mem hp)
            · rw [map_version_set m.pending i p hp]
              exact hpw

/-- The invariant holds at construction. -/
theorem versionInv_init {α : Type} (seed : Option α) : VersionInv (initMachine seed) := by
  simp [VersionInv, initMachine]

/-- The invariant holds after any trace. -/
theorem runTrace_versionInv {α : Type} (b : Binding) (browser : Bool) (seed : Option α)
    (events : List (Event α)) : VersionInv (runTrace b browser seed events) := by
  suffices hgen : ∀ m : Machine α, VersionInv m → VersionInv (events.foldl (step b browser) m) by
    exact hgen _ (versionInv_init seed)
  induction events with
  | nil => exact fun m hm => hm
  | cons e es ih => exact fun m hm => ih _ (step_versionInv b browser m e hm)

/-- A concrete present query for witnesses: `{measures: ["Orders.count"]}`. -/
def presentQuery : JsQuery :=
  { emptyJsQuery with measures := JsField.arr ["Orders.count"] }

/-- In a machine satisfying the invariant, captured versions grow strictly
with issue order. -/
theorem pending_version_lt {α : Type} (m : Machine α) (h : VersionInv m) (i j : Nat)
    (hij : i < j) (hj : j < m.pending.length) (pa pb : PendingCall)
    (hpa : m.pending.get? i = some pa) (hpb : m.pending.get? j = some pb) :
    pa.version < pb.version := by
  have hi : i < m.pending.length := lt_trans hij hj
  have hiv : i < (m.pending.map PendingCall.version).length := by simpa using hi
  have hjv : j < (m.pending.map PendingCall.version).length := by simpa using hj
  have hlt := List.pairwise_iff_getElem.mp h.2 i j hiv hjv hij
  simp only [List.getElem_map] at hlt
  rw [List.get?_eq_getElem?, List.getElem?_eq_getElem hi, Option.some.injEq] at hpa
  rw [List.get?_eq_getElem?, List.getElem?_eq_getElem hj, Option.some.injEq] at hpb
  rw [← hpa, ← hpb]
  exact hlt

/-- Claim C1: stale-response suppression.  For every binding (plain and SSR
query, metadata, builder-owned metadata, SQL, eager and lazy dry-run): in
any trace, once a later remote call `j` has been issued, the settlement of
an earlier call `i < j` — with any outcome, at any later time — leaves the
cell's value, error and loading fields (the whole cell state) unchanged. -/
theorem stale_settlement_suppressed {α : Type} (b : Binding) (browser : Bool)
    (seed : Option α) (events : List (Event α)) (i j : Nat) (o : Outcome α)
    (hij : i < j) (hj : j < (runTrace b browser seed events).pending.length) :
    (step b browser (runTrace b browser seed events) (Event.settleEv i o)).cell
      = (runTrace b browser seed events).cell := by
  have hinv := runTrace_versionInv b browser seed events
  generalize hm : runTrace b browser seed events = m at hinv hj ⊢
  have hi : i < m.pending.length := lt_trans hij hj
  obtain ⟨pa, hpa⟩ : ∃ pa, m.pending.get? i = some pa :=
    ⟨m.pending.get ⟨i, hi⟩, List.get?_eq_get hi⟩
  obtain ⟨pb, hpb⟩ : ∃ pb, m.pending.get? j = some pb :=
    ⟨m.pending.get ⟨j, hj⟩, List.get?_eq_get hj⟩
  have hlt : pa.version < pb.version :=
    pending_version_lt m hinv i j hij hj pa pb hpa hpb
  have hle : pb.version ≤ m.cell.requestVersion := hinv.1 pb (List.get?_mem hpb)
  have hne : pa.version ≠ m.cell.requestVersion :=
    Nat.ne_of_lt (lt_of_lt_of_le hlt hle)
  dsimp only [step]
  rw [hpa]
  dsimp only
  by_cases hs : pa.settled
  · rw [if_pos hs]
  · rw [if_neg hs]
    exact applySettle_stale o pa.version m.cell hne

/-- Witness for C1, instantiating the spec's concrete scenario on the plain
query binding: fetch A is issued by the auto-trigger, fetch B by a refetch;
B settles with `"X"`, making the value `"X"`; A's later settlement with
`"Y"` leaves the whole cell state — value `"X"` included — unchanged. -/
theorem stale_settlement_suppressed_witness :
    (0 < 1 ∧
      1 < (runTrace (α := String) (Binding.queryPlain false) true none
            [Event.trigger (some presentQuery), Event.refetchEv (some presentQuery),
              Event.settleEv 1 (Outcome.ok "X")]).pending.length) ∧
    (runTrace (α := String) (Binding.queryPlain false) true none
        [Event.trigger (some presentQuery), Event.refetchEv (some presentQuery),
          Event.settleEv 1 (Outcome.ok "X")]).cell.value = some "X" ∧
    (step (Binding.queryPlain false) true
        (runTrace (α := String) (Binding.queryPlain false) true none
          [Event.trigger (some presentQuery), Event.refetchEv (some presentQuery),
            Event.settleEv 1 (Outcome.ok "X")])
        (Event.settleEv 0 (Outcome.ok "Y"))).cell
      = (runTrace (α := String) (Binding.queryPlain false) true none
          [Event.trigger (some presentQuery), Event.refetchEv (some presentQuery),
            Event.settleEv 1 (Outcome.ok "X")]).cell :=
  ⟨⟨by decide, by decide⟩, by decide,
    stale_settlement_suppressed (Binding.queryPlain false) true none
      [Event.trigger (some presentQuery), Event.refetchEv (some presentQuery),
        Event.settleEv 1 (Outcome.ok "X")] 0 1 (Outcome.ok "Y") (by decide) (by decide)⟩

/-- Events available to a query binding constructed with the static query
`{}`: every auto-trigger and refetch sees a non-present query (settlements
and stray events are unrestricted). -/
def nonPresentInteraction {α : Type} : Event α → Bool
  | .trigger q => !(isQueryPresent q)
  | .refetchEv q => !(isQueryPresent q)
  | _ => true

/-- Claim C3: a query binding constructed with the empty query `{}` never
invokes the remote load operation, and its observable state stays settled at
the idle triple `{value: null, loading: false, error: null}` throughout any
interaction. -/
theorem no_call_on_absent_query {α : Type} (browser : Bool) (events : List (Event α))
    (h : events.all nonPresentInteraction = true) :
    (runTrace (Binding.queryPlain false) browser none events).pending = [] ∧
    (runTrace (Binding.queryPlain false) browser none events).cell.value = none ∧
    (runTrace (Binding.queryPlain false) browser none events).cell.loading = false ∧
    (runTrace (Binding.queryPlain false) browser none events).cell.error = none := by
  suffices hgen : ∀ m : Machine α,
      m.pending = [] → m.cell.value = none → m.cell.loading = false → m.cell.error = none →
      (events.foldl (step (Binding.queryPlain false) browser) m).pending = [] ∧
      (events.foldl (step (Binding.queryPlain false) browser) m).cell.value = none ∧
      (events.foldl (step (Binding.queryPlain false) browser) m).cell.loading = false ∧
      (events.foldl (step (Binding.queryPlain false) browser) m).cell.error = none by
    exact hgen (initMachine none) rfl rfl rfl rfl
  induction events with
  | nil => exact fun m h1 h2 h3 h4 => ⟨h1, h2, h3, h4⟩
  | cons e es ih =>
      rw [List.all_cons, Bool.and_eq_true] at h
      intro m h1 h2 h3 h4
      rw [List.foldl_cons]
      have hstep : (step (Binding.queryPlain false) browser m e).pending = [] ∧
          (step (Binding.queryPlain false) browser m e).cell.value = none ∧
          (step (Binding.queryPlain false) browser m e).cell.loading = false ∧
          (step (Binding.queryPlain false) browser m e).cell.error = none := by
        cases e with
        | trigger q =>
            have hq : isQueryPresent q = false := by
              simpa [nonPresentInteraction] using h.1
            simp [step, hq, h1, h2, h3, h4]
        | refetchEv q =>
            have hq : isQueryPresent q = false := by
              simpa [nonPresentInteraction] using h.1
            simp [step, executeStart, bump, hq, idleReset, h1]
        | runEv q => exact ⟨h1, h2, h3, h4⟩
        | settleEv i o =>
            have hget : m.pending.get? i = none := by simp [h1]
            simp [step, hget, h1, h2, h3, h4]
      exact ih h.2 _ hstep.1 hstep.2.1 hstep.2.2.1 hstep.2.2.2

/-- Witness for C3: a trace of one auto-trigger and one refetch with the
empty query issues no remote call and leaves the idle triple. -/
theorem no_call_on_absent_query_witness :
    ([Event.trigger (α := String) (some emptyJsQuery),
        Event.refetchEv (some emptyJsQuery)].all nonPresentInteraction = true) ∧
    ((runTrace (Binding.queryPlain false) true none
        [Event.trigger (α := String) (some emptyJsQuery),
          Event.refetchEv (some emptyJsQuery)]).pending = [] ∧
      (runTrace (Binding.queryPlain false) true none
        [Event.trigger (α := String) (some emptyJsQuery),
          Event.refetchEv (some emptyJsQuery)]).cell.value = none ∧
      (runTrace (Binding.queryPlain false) true none
        [Event.trigger (α := String) (some emptyJsQuery),
          Event.refetchEv (some emptyJsQuery)]).cell.loading = false ∧
      (runTrace (Binding.queryPlain false) true none
        [Event.trigger (α := String) (some emptyJsQuery),
          Event.refetchEv (some emptyJsQuery)]).cell.error = none) :=
  ⟨by decide,
    no_call_on_absent_query true
      [Event.trigger (α := String) (some emptyJsQuery),
        Event.refetchEv (some emptyJsQuery)] (by decide)⟩

/-- Claim C4: for every binding, when an issued remote call rejects while
still the latest version, the cell's error becomes an `Error` instance —
non-Error throwables are wrapped into an Error carrying their string
representation, so rejecting with the string `"boom"` yields an error whose
message is `"boom"` — and the value becomes null. -/
theorem error_normalization_on_failure {α : Type} (b : Binding) (browser : Bool)
    (m : Machine α) (i : Nat) (p : PendingCall) (e : JsThrown)
    (hp : m.pending.get? i = some p) (hs : p.settled = false)
    (hv : p.version = m.cell.requestVersion) :
    (step b browser m (Event.settleEv i (Outcome.err e))).cell.error
        = some (normalizeError e) ∧
    (normalizeError e).isErrorInstance = true ∧
    (step b browser m (Event.settleEv i (Outcome.err e))).cell.value = none ∧
    (step b browser m (Event.settleEv i (Outcome.err e))).cell.loading = false ∧
    normalizeError (JsThrown.nonError "boom") = JsThrown.errorObj "boom" := by
  have hstep : (step b browser m (Event.settleEv i (Outcome.err e))).cell
      = { m.cell with error := some (normalizeError e), value := none, loading := false } := by
    dsimp only [step]
    rw [hp]
    dsimp only
    rw [if_neg (by simp [hs])]
    exact applySettle_err_latest e p.version m.cell hv
  refine ⟨?_, ?_, ?_, ?_, rfl⟩
  · rw [hstep]
  · cases e <;> rfl
  · rw [hstep]
  · rw [hstep]

/-- Witness for C4: on the plain query binding, one auto-trigger issues a
call; rejecting it with the bare string `"boom"` stores
`Error("boom")` and clears the value. -/
theorem error_normalization_on_failure_witness :
    ((runTrace (α := String) (Binding.queryPlain false) true none
        [Event.trigger (some presentQuery)]).pending.get? 0
      = some ⟨1, RemoteCall.load (some presentQuery), false⟩) ∧
    ((step (Binding.queryPlain false) true
        (runTrace (α := String) (Binding.queryPlain false) true none
          [Event.trigger (some presentQuery)])
        (Event.settleEv 0 (Outcome.err (JsThrown.nonError "boom")))).cell.error
          = some (normalizeError (JsThrown.nonError "boom")) ∧
      (normalizeError (JsThrown.nonError "boom")).isErrorInstance = true ∧
      (step (Binding.queryPlain false) true
        (runTrace (α := String) (Binding.queryPlain false) true none
          [Event.trigger (some presentQuery)])
        (Event.settleEv 0 (Outcome.err (JsThrown.nonError "boom")))).cell.value = none ∧
      (step (Binding.queryPlain false) true
        (runTrace (α := String) (Binding.queryPlain false) true none
          [Event.trigger (some presentQuery)])
        (Event.settleEv 0 (Outcome.err (JsThrown.nonError "boom")))).cell.loading = false ∧
      normalizeError (JsThrown.nonError "boom") = JsThrown.errorObj "boom") :=
  ⟨by decide,
    error_normalization_on_failure (Binding.queryPlain false) true
      (runTrace (α := String) (Binding.queryPlain false) true none
        [Event.trigger (some presentQuery)])
      0 ⟨1, RemoteCall.load (some presentQuery), false⟩ (JsThrown.nonError "boom")
      (by decide) (by decide) (by decide)⟩

/-- Recognizer for auto-trigger events. -/
def isTriggerEvent {α : Type} : Event α → Bool
  | .trigger _ => true
  | _ => false

/-- Claim C5: for the SSR-aware query and metadata bindings, when an initial
value is supplied and no manual refetch has occurred, any number of
auto-trigger runs performs zero remote calls and leaves the machine — its
value the supplied seed — untouched; a `refetch()` marks `hasRefetched`,
after which an auto-trigger (environment gate passing, query present)
issues a remote call again. -/
theorem hydration_seed_skip {α : Type} (ssr browser : Bool) (x : α) :
    (∀ events : List (Event α), events.all isTriggerEvent = true →
        runTrace (Binding.querySsr false ssr true) browser (some x) events
            = initMachine (some x) ∧
        runTrace (Binding.metaSsr ssr true) browser (some x) events
            = initMachine (some x)) ∧
    (∀ (m : Machine α) (q : Option JsQuery),
        (step (Binding.querySsr false ssr true) browser m
            (Event.refetchEv q)).hasRefetched = true ∧
        (step (Binding.metaSsr ssr true) browser m
            (Event.refetchEv q)).hasRefetched = true) ∧
    (∀ (m : Machine α) (q : Option JsQuery),
        m.hasRefetched = true → (browser = true ∨ ssr = true) →
        isQueryPresent q = true →
        (step (Binding.querySsr false ssr true) browser m (Event.trigger q)).pending
            = m.pending ++ [⟨m.cell.requestVersion + 1, RemoteCall.load q, false⟩] ∧
        (step (Binding.metaSsr ssr true) browser m (Event.trigger q)).pending
            = m.pending ++ [⟨m.cell.requestVersion + 1, RemoteCall.meta, false⟩]) := by
  refine ⟨?_, ?_, ?_⟩
  · intro events hall
    have hq : ∀ q : Option JsQuery,
        step (Binding.querySsr false ssr true) browser (initMachine (some x))
          (Event.trigger q) = initMachine (some x) := by
      intro q
      simp [step, initMachine]
    have hmeta : ∀ q : Option JsQuery,
        step (Binding.metaSsr ssr true) browser (initMachine (some x))
          (Event.trigger q) = initMachine (some x) := by
      intro q
      simp [step, initMachine]
    unfold runTrace
    induction events with
    | nil => exact ⟨rfl, rfl⟩
    | cons e es ih =>
        rw [List.all_cons, Bool.and_eq_true] at hall
        cases e with
        | trigger q =>
            rw [List.foldl_cons, List.foldl_cons, hq q, hmeta q]
            exact ih hall.2
        | refetchEv q => simp [isTriggerEvent] at hall
        | runEv q => simp [isTriggerEvent] at hall
        | settleEv i o => simp [isTriggerEvent] at hall
  · intro m q
    constructor <;> (simp [step, executeStart, metaStart, bump, idleReset]; try (split <;> simp))
  · intro m q href hgate hq
    have hgate' : (!browser && !ssr) = false := by
      rcases hgate with h | h <;> simp [h]
    constructor
    · simp [step, hgate', href, hq, executeStart, bump]
    · simp [step, hgate', href, metaStart, bump]

/-- Witness for C5: with seed `"seed"`, one auto-trigger run leaves both
SSR-aware machines untouched; a refetch flips `hasRefetched`; and on a
machine that has refetched, a trigger with a present query issues a call. -/
theorem hydration_seed_skip_witness :
    (([Event.trigger (α := String) (some presentQuery)].all isTriggerEvent = true) ∧
      (runTrace (Binding.querySsr false true true) true (some "seed")
          [Event.trigger (α := String) (some presentQuery)] = initMachine (some "seed") ∧
        runTrace (Binding.metaSsr true true) true (some "seed")
          [Event.trigger (α := String) (some presentQuery)] = initMachine (some "seed"))) ∧
    ((step (Binding.querySsr false true true) true
        (initMachine (α := String) (some "seed")) (Event.refetchEv (some presentQuery))).hasRefetched
        = true) ∧
    ({ initMachine (α := String) (some "seed") with hasRefetched := true }.hasRefetched = true ∧
      (step (Binding.querySsr false true true) true
          { initMachine (α := String) (some "seed") with hasRefetched := true }
          (Event.trigger (some presentQuery))).pending
        = [⟨1, RemoteCall.load (some presentQuery), false⟩]) :=
  ⟨⟨by decide,
      (hydration_seed_skip true true "seed").1
        [Event.trigger (some presentQuery)] (by decide)⟩,
    ((hydration_seed_skip true true "seed").2.1
        (initMachine (some "seed")) (some presentQuery)).1,
    by decide,
    by
      have h := ((hydration_seed_skip true true "seed").2.2
        { initMachine (α := String) (some "seed") with hasRefetched := true }
        (some presentQuery) (by decide) (Or.inl rfl) (by decide)).1
      simpa [initMachine] using h⟩

/-- Claim C10: for every non-lazy query-gated binding (plain query, SSR
query with `skip = false`, SQL, eager dry-run), an auto-trigger that sees a
non-present query makes no remote call and leaves the whole machine — value,
loading, error — exactly as it was; an explicit `refetch()` under a
non-present query makes no remote call either but settles the cell to the
idle triple (with the version bumped). -/
theorem nonpresent_trigger_frame {α : Type} (browser ssr hasInitial : Bool)
    (m : Machine α) (q : Option JsQuery) (hq : isQueryPresent q = false) :
    (step (Binding.queryPlain false) browser m (Event.trigger q) = m ∧
      step (Binding.querySsr false ssr hasInitial) browser m (Event.trigger q) = m ∧
      step (Binding.sqlBinding ssr) browser m (Event.trigger q) = m ∧
      step (Binding.dryRunEager ssr) browser m (Event.trigger q) = m) ∧
    ((step (Binding.queryPlain false) browser m (Event.refetchEv q)).cell
        = { value := none, loading := false, error := none,
            requestVersion := m.cell.requestVersion + 1 } ∧
      (step (Binding.queryPlain false) browser m (Event.refetchEv q)).pending = m.pending ∧
      (step (Binding.querySsr false ssr hasInitial) browser m (Event.refetchEv q)).cell
        = { value := none, loading := false, error := none,
            requestVersion := m.cell.requestVersion + 1 } ∧
      (step (Binding.querySsr false ssr hasInitial) browser m
          (Event.refetchEv q)).pending = m.pending ∧
      (step (Binding.sqlBinding ssr) browser m (Event.refetchEv q)).cell
        = { value := none, loading := false, error := none,
            requestVersion := m.cell.requestVersion + 1 } ∧
      (step (Binding.sqlBinding ssr) browser m (Event.refetchEv q)).pending = m.pending ∧
      (step (Binding.dryRunEager ssr) browser m (Event.refetchEv q)).cell
        = { value := none, loading := false, error := none,
            requestVersion := m.cell.requestVersion + 1 } ∧
      (step (Binding.dryRunEager ssr) browser m (Event.refetchEv q)).pending = m.pending) := by
  constructor
  · refine ⟨?_, ?_, ?_, ?_⟩ <;> simp [step, hq]
  · refine ⟨?_, ?_, ?_, ?_, ?_, ?_, ?_, ?_⟩ <;>
      simp [step, executeStart, bump, idleReset, hq]

/-- Witness for C10: on a machine holding previously fetched data, a
trigger with `{}` retains the data while a refetch with `{}` resets to the
idle triple without issuing a call. -/
theorem nonpresent_trigger_frame_witness :
    (isQueryPresent (some emptyJsQuery) = false) ∧
    (step (Binding.queryPlain false) true
        { cell := { value := some "data", loading := false, error := none, requestVersion := 1 },
          hasRefetched := false, lastQuery := none, pending := [] }
        (Event.trigger (some emptyJsQuery))
      = { cell := { value := some "data", loading := false, error := none, requestVersion := 1 },
          hasRefetched := false, lastQuery := none, pending := [] }) ∧
    ((step (Binding.queryPlain false) true
        { cell := { value := some "data", loading := false, error := none, requestVersion := 1 },
          hasRefetched := false, lastQuery := none, pending := [] }
        (Event.refetchEv (some emptyJsQuery))).cell
      = { value := none, loading := false, error := none, requestVersion := 2 }) :=
  ⟨by decide,
    ((nonpresent_trigger_frame true false false
        { cell := { value := some "data", loading := false, error := none, requestVersion := 1 },
          hasRefetched := false, lastQuery := none, pending := [] }
        (some emptyJsQuery) (by decide)).1).1,
    ((nonpresent_trigger_frame true false false
        { cell := { value := some "data", loading := false, error := none, requestVersion := 1 },
          hasRefetched := false, lastQuery := none, pending := [] }
        (some emptyJsQuery) (by decide)).2).1⟩

/-- Counterexample for C6 as stated: `run({})` is a call to `run`, so a
query is remembered (`lastQuery = {}`), yet the subsequent `refetch()` does
not re-invoke the remote dryRun operation — the presence gate inside `run`
skips it, so no remote call is ever issued. -/
theorem lazy_refetch_counterexample :
    (runTrace (α := String) Binding.lazyDryRun true none
        [Event.runEv emptyJsQuery]).lastQuery = some emptyJsQuery ∧
    (runTrace (α := String) Binding.lazyDryRun true none
        [Event.runEv emptyJsQuery, Event.refetchEv none]).pending = [] := by
  decide

/-- Claim C6 (amended): after `run(q)`, a `refetch()` re-invokes the remote
dryRun operation with exactly the remembered query `q` provided `q` is
present; with a non-present remembered query, `refetch()` (like `run`
itself) issues no remote call; and if `run()` was never called
(`lastQuery` is null), `refetch()` silently no-ops, leaving the whole
machine — value, loading, error — unchanged and making no remote call. -/
theorem lazy_refetch_memory {α : Type} (browser : Bool) (m : Machine α)
    (qarg : Option JsQuery) :
    (∀ q : JsQuery, m.lastQuery = some q → isQueryPresent (some q) = true →
        (step Binding.lazyDryRun browser m (Event.refetchEv qarg)).pending
          = m.pending ++ [⟨m.cell.requestVersion + 1, RemoteCall.dryRun (some q), false⟩]) ∧
    (∀ q : JsQuery, m.lastQuery = some q → isQueryPresent (some q) = false →
        (step Binding.lazyDryRun browser m (Event.refetchEv qarg)).pending = m.pending) ∧
    (m.lastQuery = none → step Binding.lazyDryRun browser m (Event.refetchEv qarg) = m) := by
  refine ⟨?_, ?_, ?_⟩
  · intro q hlq hq
    simp [step, hlq, lazyRun, executeStart, bump, hq]
  · intro q hlq hq
    simp [step, hlq, lazyRun, executeStart, bump, hq, idleReset]
  · intro hlq
    simp [step, hlq]

/-- Witness for C6 (amended): after `run` with a present query, `refetch`
issues a dryRun with exactly that query; on a fresh machine (no `run` yet),
`refetch` is a complete no-op. -/
theorem lazy_refetch_memory_witness :
    ((runTrace (α := String) Binding.lazyDryRun true none
          [Event.runEv presentQuery]).lastQuery = some presentQuery ∧
      isQueryPresent (some presentQuery) = true ∧
      (step Binding.lazyDryRun true
          (runTrace (α := String) Binding.lazyDryRun true none
            [Event.runEv presentQuery])
          (Event.refetchEv none)).pending
        = (runTrace (α := String) Binding.lazyDryRun true none
            [Event.runEv presentQuery]).pending ++
          [⟨(runTrace (α := String) Binding.lazyDryRun true none
                [Event.runEv presentQuery]).cell.requestVersion + 1,
              RemoteCall.dryRun (some presentQuery), false⟩]) ∧
    ((initMachine (α := String) none).lastQuery = none ∧
      step Binding.lazyDryRun true (initMachine (α := String) none)
          (Event.refetchEv none)
        = initMachine (α := String) none) :=
  ⟨⟨by decide, by decide,
      (lazy_refetch_memory true
          (runTrace (α := String) Binding.lazyDryRun true none
            [Event.runEv presentQuery]) none).1
        presentQuery (by decide) (by decide)⟩,
    ⟨by decide,
      (lazy_refetch_memory true (initMachine (α := String) none) none).2.2 (by decide)⟩⟩

end CubeSvelte
